import Mathlib

/-!
Shallow embedding of `parse_taskbook.py` (repository AlexBrantt/YandexPracticumTZ3).

The core of the program is a line-classification engine over paragraph text:
`extract_tasks_from_docx` walks normalized lines, recognizes numbered tasks and
lettered/numbered sub-variants, switches to an answers section on a sentinel
heading, and merges extracted answers back into the task records;
`extract_answers_from_line` parses packed answer lines; `extract_toc` parses a
table-of-contents block into parent-linked nodes.

Strings are modelled as `List Char`.  Each Python regular expression used by the
program is translated into an explicit matching function; where the regex
engine's greedy/lazy backtracking order matters the translation follows that
order (noted at each definition).
-/

namespace ParseTaskbook

/-- Python `\d`: ASCII digits 0-9 (codepoints 48-57). -/
def isDigit (c : Char) : Bool := 48 ≤ c.toNat && c.toNat ≤ 57

/-- Python `\s` / `str.strip` whitespace, restricted to the ASCII whitespace
characters: space 32, tab 9, newline 10, carriage return 13, vertical tab 11,
form feed 12. -/
def isSpaceChar (c : Char) : Bool :=
  c.toNat = 32 || c.toNat = 9 || c.toNat = 10 || c.toNat = 13 ||
  c.toNat = 11 || c.toNat = 12

/-- Character class `[а-яё]`: lowercase Cyrillic а (1072) .. я (1103) and ё (1105). -/
def isCyrLower (c : Char) : Bool :=
  (1072 ≤ c.toNat && c.toNat ≤ 1103) || c.toNat = 1105

/-- Character class `[а-яё]` under `re.IGNORECASE`: also uppercase
А (1040) .. Я (1071) and Ё (1025). -/
def isCyrAny (c : Char) : Bool :=
  isCyrLower c || (1040 ≤ c.toNat && c.toNat ≤ 1071) || c.toNat = 1025

/-- Regex `.`: any character except newline. -/
def isDotChar (c : Char) : Bool := c.toNat ≠ 10

/-- Python `str.strip()`: drop leading and trailing whitespace. -/
def strip (s : List Char) : List Char :=
  ((s.dropWhile isSpaceChar).reverse.dropWhile isSpaceChar).reverse

/-- Helper for `re.sub(r'\s+', ' ', s)`: the flag records whether the previous
character was whitespace (so a run collapses to a single space). -/
def collapseAux : Bool → List Char → List Char
  | _, [] => []
  | prevSpace, c :: cs =>
    if isSpaceChar c then
      if prevSpace then collapseAux true cs else ' ' :: collapseAux true cs
    else c :: collapseAux false cs

/-- Python `re.sub(r'\s+', ' ', s)`: collapse every whitespace run to one space. -/
def collapseWS (s : List Char) : List Char := collapseAux false s

/-- The sentinel heading that switches the scan into the answers section. -/
def sentinelAnswers : List Char := "Ответы и советы".data

/-- Regex `\s*(.+)` applied at the end of several patterns: `\s*` is greedy and
gives characters back one at a time until `.+` can consume at least one
non-newline character; the group returned is the greedy `.+` match.  The
argument `k` is the number of whitespace characters currently matched by `\s*`. -/
def wsStarDotPlusGo : Nat → List Char → Option (List Char)
  | k, s =>
    match (s.drop k).head? with
    | some c =>
      if isDotChar c then some ((s.drop k).takeWhile isDotChar)
      else
        match k with
        | 0 => none
        | k2 + 1 => wsStarDotPlusGo k2 s
    | none =>
      match k with
      | 0 => none
      | k2 + 1 => wsStarDotPlusGo k2 s

/-- Regex `\s*(.+)`: start from the maximal whitespace run. -/
def wsStarDotPlus (s : List Char) : Option (List Char) :=
  wsStarDotPlusGo (s.takeWhile isSpaceChar).length s

/-- Regex `\s+(.+)`: one mandatory whitespace character followed by `\s*(.+)`. -/
def wsPlusDotPlus (s : List Char) : Option (List Char) :=
  match s with
  | c :: rest => if isSpaceChar c then wsStarDotPlus rest else none
  | [] => none

/-- Regex `^\d+\.\d+\.` (the "three-level dotted" skip test, and the shape used
for the section-header lookahead). -/
def matchesThreeLevel (s : List Char) : Bool :=
  let ds1 := s.takeWhile isDigit
  if ds1.isEmpty then false
  else
    match s.dropWhile isDigit with
    | '.' :: rest =>
      let ds2 := rest.takeWhile isDigit
      if ds2.isEmpty then false
      else
        match rest.dropWhile isDigit with
        | '.' :: _ => true
        | _ => false
    | _ => false

/-- Regex `^(\d+)\.\s*(.*)` : the main-task detector.  Returns the digit group
and the raw `(.*)` group (everything after the greedy `\s*`, up to a newline);
the caller strips the second group. -/
def mainMatch (s : List Char) : Option (List Char × List Char) :=
  let ds := s.takeWhile isDigit
  if ds.isEmpty then none
  else
    match s.dropWhile isDigit with
    | '.' :: rest =>
      some (ds, (rest.dropWhile isSpaceChar).takeWhile isDotChar)
    | _ => none

/-- Regex `rf'^{current_main_id}\.\d+\.'` applied to the next line: literal
digits of the current main id, then a dot, digits, dot. -/
def matchesHeaderNext (mainId next : List Char) : Bool :=
  if next.take mainId.length = mainId then
    match next.drop mainId.length with
    | '.' :: rest =>
      let ds := rest.takeWhile isDigit
      if ds.isEmpty then false
      else
        match rest.dropWhile isDigit with
        | '.' :: _ => true
        | _ => false
    | _ => false
  else false

/-- The `is_header` lookahead: `i + 1 < len(lines)` and the next line (stripped)
matches the header shape for the current main id. -/
def headerNext (mainId : List Char) (next? : Option (List Char)) : Bool :=
  match next? with
  | some nl => matchesHeaderNext mainId (strip nl)
  | none => false

/-- Regex `INLINE_LETTER = ^(\d+)\.\s*([а-яё])\)\s*(.+)` with `re.IGNORECASE`:
returns the letter group (case preserved) and the raw `(.+)` group. -/
def inlineLetterMatch (s : List Char) : Option (Char × List Char) :=
  let ds := s.takeWhile isDigit
  if ds.isEmpty then none
  else
    match s.dropWhile isDigit with
    | '.' :: rest =>
      match rest.dropWhile isSpaceChar with
      | c :: ')' :: r3 =>
        if isCyrAny c then (wsStarDotPlus r3).map (fun txt => (c, txt)) else none
      | _ => none
    | _ => none

/-- Regex `INLINE_NUMBERED = ^(\d+)\.\s*(\d+)\)\s*(.+)`: returns the second
digit group and the raw `(.+)` group. -/
def inlineNumberedMatch (s : List Char) : Option (List Char × List Char) :=
  let ds := s.takeWhile isDigit
  if ds.isEmpty then none
  else
    match s.dropWhile isDigit with
    | '.' :: rest =>
      let t := rest.dropWhile isSpaceChar
      let vs := t.takeWhile isDigit
      if vs.isEmpty then none
      else
        match t.dropWhile isDigit with
        | ')' :: r3 => (wsStarDotPlus r3).map (fun txt => (vs, txt))
        | _ => none
    | _ => none

/-- Regex `NEW_LINE_LETTER = ^\s*([а-яё])\)\s*(.+)` with `re.IGNORECASE`. -/
def newLineLetterMatch (s : List Char) : Option (Char × List Char) :=
  match s.dropWhile isSpaceChar with
  | c :: ')' :: r =>
    if isCyrAny c then (wsStarDotPlus r).map (fun txt => (c, txt)) else none
  | _ => none

/-- Regex `NEW_LINE_NUMBERED = ^\s*(\d+)\)\s+(.+)`. -/
def newLineNumberedMatch (s : List Char) : Option (List Char × List Char) :=
  let t := s.dropWhile isSpaceChar
  let ds := t.takeWhile isDigit
  if ds.isEmpty then none
  else
    match t.dropWhile isDigit with
    | ')' :: r => (wsPlusDotPlus r).map (fun txt => (ds, txt))
    | _ => none

/-! ### Answer extraction (`extract_answers_from_line`) -/

/-- Lookahead `(?=\d+\.)`: digits then a dot. -/
def startsWithNumDot (s : List Char) : Bool :=
  let ds := s.takeWhile isDigit
  if ds.isEmpty then false
  else
    match s.dropWhile isDigit with
    | '.' :: _ => true
    | _ => false

/-- Delimiter of `re.split(r'(?<=\.)\s+(?=\d+\.)', line)` tried at the current
position (the lookbehind is checked by the caller): `\s+` must take the whole
whitespace run, since a shorter take leaves a whitespace character where the
lookahead demands a digit.  Returns the run length on success. -/
def splitDelimLen (s : List Char) : Option Nat :=
  let w := (s.takeWhile isSpaceChar).length
  if w = 0 then none
  else if startsWithNumDot (s.drop w) then some w else none

/-- Scanner for `re.split(r'(?<=\.)\s+(?=\d+\.)', line)`: `prev` is the
character just before the current position (`none` at the start of the line),
`acc` the current segment in reverse.  After a delimiter the new previous
character is the final whitespace of the run, which can never satisfy the
lookbehind, so it is recorded as `none`. -/
def splitAnsGo (fuel : Nat) (prev : Option Char) (acc : List Char)
    (s : List Char) : List (List Char) :=
  match fuel, s with
  | _, [] => [acc.reverse]
  | 0, rest => [acc.reverse ++ rest]
  | fuel2 + 1, c :: rest =>
    match prev with
    | some '.' =>
      match splitDelimLen (c :: rest) with
      | some k => acc.reverse :: splitAnsGo fuel2 none [] ((c :: rest).drop k)
      | none => splitAnsGo fuel2 (some c) (c :: acc) rest
    | _ => splitAnsGo fuel2 (some c) (c :: acc) rest

/-- Python `re.split(r'(?<=\.)\s+(?=\d+\.)', line)`. -/
def splitAnswerParts (line : List Char) : List (List Char) :=
  splitAnsGo line.length none [] line

/-- Regex `re.match(r'(\d+)\.(.+)', part)`: leading digits, a dot, and a
non-empty remainder (`.+` greedy, stopping at a newline). -/
def taskNumSplit (part : List Char) : Option (List Char × List Char) :=
  let ds := part.takeWhile isDigit
  if ds.isEmpty then none
  else
    match part.dropWhile isDigit with
    | '.' :: rest =>
      match rest.head? with
      | some c => if isDotChar c then some (ds, rest.takeWhile isDotChar) else none
      | none => none
    | _ => none

/-- Lookahead of `NUMBERED_VARIANT`: `(?=(?:\s+\d+\)|$|\.|;))`. -/
def lookNum (u : List Char) : Bool :=
  match u with
  | [] => true
  | c :: _ =>
    c = '.' || c = ';' ||
    (isSpaceChar c &&
      (let t := u.dropWhile isSpaceChar
       let ds := t.takeWhile isDigit
       !ds.isEmpty &&
         (match t.dropWhile isDigit with
          | ')' :: _ => true
          | _ => false)))

/-- Lookahead of `LETTER_VARIANT`: `(?=(?:\s+[а-яё]\)|$|\.|;))` (IGNORECASE). -/
def lookLet (u : List Char) : Bool :=
  match u with
  | [] => true
  | c :: _ =>
    c = '.' || c = ';' ||
    (isSpaceChar c &&
      (match u.dropWhile isSpaceChar with
       | a :: ')' :: _ => isCyrAny a
       | _ => false))

/-- Body `\s*([^;.]+?)(?=...)` of `NUMBERED_VARIANT` after the `)`: greedy
`\s*`, then the lazy group takes the smallest positive number of characters
after which the lookahead holds.  `\s*` only ever backtracks by one character,
when the character after the whitespace run is `;` or `.` (which the group may
not consume) or the run reaches the end of the string.  Returns the group and
the remainder of the string after the match. -/
def lazyBodyNum (t : List Char) : Option (List Char × List Char) :=
  let wmax := (t.takeWhile isSpaceChar).length
  let pick : Option Nat :=
    match (t.drop wmax).head? with
    | some c => if c = ';' || c = '.' then (if wmax = 0 then none else some (wmax - 1)) else some wmax
    | none => if wmax = 0 then none else some (wmax - 1)
  match pick with
  | none => none
  | some w =>
    let r := t.drop w
    (List.range r.length).findSome? (fun i =>
      let m := i + 1
      if lookNum (r.drop m) then some (r.take m, r.drop m) else none)

/-- Body `\s*([^;]*?)(?=...)` of `LETTER_VARIANT` after the `)`: the lazy group
may be empty, so the greedy `\s*` never backtracks; the group takes the
smallest number of characters after which the lookahead holds. -/
def lazyBodyLet (t : List Char) : Option (List Char × List Char) :=
  let w := (t.takeWhile isSpaceChar).length
  let r := t.drop w
  (List.range (r.length + 1)).findSome? (fun m =>
    if lookLet (r.drop m) then some (r.take m, r.drop m) else none)

/-- One attempt of `NUMBERED_VARIANT = (?:^|\s+)(\d+)\)\s*([^;.]+?)(?=...)` at
the current position: `atStart` tells whether `^` applies; otherwise `\s+`
must consume the whole whitespace run (a shorter take leaves whitespace where
`\d+` is required).  Returns the digit group, the answer group and the
remainder after the match. -/
def tryNumberedAt (atStart : Bool) (s : List Char) :
    Option (List Char × List Char × List Char) :=
  let afterHead : List Char → Option (List Char × List Char × List Char) :=
    fun t =>
      let ds := t.takeWhile isDigit
      if ds.isEmpty then none
      else
        match t.dropWhile isDigit with
        | ')' :: r =>
          (lazyBodyNum r).map (fun p => (ds, p.1, p.2))
        | _ => none
  if atStart then
    match afterHead s with
    | some res => some res
    | none =>
      match s with
      | c :: _ =>
        if isSpaceChar c then afterHead (s.dropWhile isSpaceChar) else none
      | [] => none
  else
    match s with
    | c :: _ => if isSpaceChar c then afterHead (s.dropWhile isSpaceChar) else none
    | [] => none

/-- One attempt of `LETTER_VARIANT = (?:^|\s+)([а-яё])\)\s*([^;]*?)(?=...)`
(IGNORECASE) at the current position. -/
def tryLetterAt (atStart : Bool) (s : List Char) :
    Option (List Char × List Char × List Char) :=
  let afterHead : List Char → Option (List Char × List Char × List Char) :=
    fun t =>
      match t with
      | a :: ')' :: r =>
        if isCyrAny a then (lazyBodyLet r).map (fun p => ([a], p.1, p.2)) else none
      | _ => none
  if atStart then
    match afterHead s with
    | some res => some res
    | none =>
      match s with
      | c :: _ =>
        if isSpaceChar c then afterHead (s.dropWhile isSpaceChar) else none
      | [] => none
  else
    match s with
    | c :: _ => if isSpaceChar c then afterHead (s.dropWhile isSpaceChar) else none
    | [] => none

/-- Python `re.finditer` scan: try a match at each position left to right, resuming
after the end of each match (matches here always consume at least one
character, so the fuel `s.length` suffices). -/
def findIterGo (tryAt : Bool → List Char → Option (List Char × List Char × List Char)) :
    Nat → Bool → List Char → List (List Char × List Char)
  | 0, _, _ => []
  | _, _, [] => []
  | fuel + 1, atStart, c :: rest =>
    match tryAt atStart (c :: rest) with
    | some (g1, g2, rem) => (g1, g2) :: findIterGo tryAt fuel false rem
    | none => findIterGo tryAt fuel false rest

/-- Python `list(re.finditer(NUMBERED_VARIANT, s, re.IGNORECASE))`, as (group1, group2) pairs. -/
def finditerNumbered (s : List Char) : List (List Char × List Char) :=
  findIterGo tryNumberedAt s.length true s

/-- Python `list(re.finditer(LETTER_VARIANT, s, re.IGNORECASE))`, as (group1, group2) pairs. -/
def finditerLetter (s : List Char) : List (List Char × List Char) :=
  findIterGo tryLetterAt s.length true s

/-- Python `re.search(r'^\s*[а-яё0-9]\)', answer_text, re.IGNORECASE)`: anchored at
the start, optional whitespace, a single Cyrillic letter or digit, `)`. -/
def bareVariantStart (s : List Char) : Bool :=
  match s.dropWhile isSpaceChar with
  | c :: ')' :: _ => isCyrAny c || isDigit c
  | _ => false

/-- Python `re.sub(r'\.$', '', s)`: remove a single trailing dot. -/
def stripTrailingDot (s : List Char) : List Char :=
  match s.reverse with
  | '.' :: r => r.reverse
  | _ => s

/-- Python dict assignment `d[k] = v`: update in place if the key exists,
otherwise append (insertion order preserved). -/
def dictInsert (d : List (List Char × List Char)) (k v : List Char) :
    List (List Char × List Char) :=
  if d.any (fun p => p.1 = k) then
    d.map (fun p => if p.1 = k then (k, v) else p)
  else d ++ [(k, v)]

/-- Python `d.get(k)` / `k in d` on the association-list model of a dict. -/
def dictGet (d : List (List Char × List Char)) (k : List Char) :
    Option (List Char) :=
  (d.find? (fun p => p.1 = k)).map (fun p => p.2)

/-- Python `d1.update(d2)`. -/
def dictUpdate (d1 d2 : List (List Char × List Char)) :
    List (List Char × List Char) :=
  d2.foldl (fun d p => dictInsert d p.1 p.2) d1

/-- Function `extract_answers_from_line(line)`: split the line into per-task segments,
parse each segment's task number, then try the numbered-variant pattern, the
letter-variant pattern, and finally the bare-answer fallback. -/
def extract_answers_from_line (line : List Char) : List (List Char × List Char) :=
  (splitAnswerParts line).foldl
    (fun answers part =>
      match taskNumSplit part with
      | none => answers
      | some (taskNum, g2) =>
        let answerText := strip g2
        let numbered := finditerNumbered answerText
        if !numbered.isEmpty then
          numbered.foldl
            (fun a p => dictInsert a (taskNum ++ '.' :: p.1) (strip p.2)) answers
        else
          let letters := finditerLetter answerText
          if !letters.isEmpty then
            letters.foldl
              (fun a p => dictInsert a (taskNum ++ '.' :: p.1) (strip p.2)) answers
          else
            if !answerText.isEmpty && !bareVariantStart answerText then
              dictInsert answers taskNum (strip (stripTrailingDot answerText))
            else answers)
    []

/-! ### Task records and the scanning state machine (`extract_tasks_from_docx`) -/

/-- A task record as produced by `create_task`. -/
structure Task where
  id_tasks_book : List Char
  task : List Char
  answer : List Char
  classes : List Char
  topic_id : Nat
  level : Nat
deriving DecidableEq, Repr

/-- Function `create_task(main_id, variant, task_text, is_subtask=True)`: the id is
`main_id.variant` when a variant is given, sub-variant text is prefixed with a
tab, and the answer starts at the "no answer" sentinel. -/
def create_task (main_id : List Char) (variant : Option (List Char))
    (task_text : List Char) (is_subtask : Bool := true) : Task :=
  { id_tasks_book :=
      match variant with
      | some v => main_id ++ '.' :: v
      | none => main_id
    task := if is_subtask then '\t' :: task_text else task_text
    answer := "Отсутствует".data
    classes := "5;6".data
    topic_id := 1
    level := 1 }

/-- The mutable state of the scan in `extract_tasks_from_docx`. -/
structure ScanState where
  tasks : List Task
  current_main_id : Option (List Char)
  answers_section : Bool
  all_answers : List (List Char × List Char)
deriving Repr

/-- The initial scan state. -/
def initState : ScanState :=
  { tasks := [], current_main_id := none, answers_section := false, all_answers := [] }

/-- The body of the scan loop for one already-normalized line, with `next?` the
raw following line (for the section-header lookahead).  Mirrors the branch
structure of the Python loop: sentinel test, three-level skip, main-task match
(with header suppression, then the two inline patterns, then the bare-task
fallback), the two new-line patterns guarded by `current_main_id`, and the
answers branch. -/
def scanLineNorm (st : ScanState) (line : List Char) (next? : Option (List Char)) :
    ScanState :=
  if line = sentinelAnswers then { st with answers_section := true }
  else if st.answers_section = false then
    if matchesThreeLevel line then st
    else
      match mainMatch line with
      | some (mid, g2) =>
        let suffix := strip g2
        let st1 := { st with current_main_id := some mid }
        if headerNext mid next? then st1
        else
          match inlineLetterMatch line with
          | some (v, txt) =>
            { st1 with tasks := st1.tasks ++ [create_task mid (some [v]) (strip txt)] }
          | none =>
            match inlineNumberedMatch line with
            | some (v, txt) =>
              { st1 with tasks := st1.tasks ++ [create_task mid (some v) (strip txt)] }
            | none =>
              if suffix.isEmpty then st1
              else { st1 with tasks := st1.tasks ++ [create_task mid none suffix false] }
      | none =>
        match newLineLetterMatch line, st.current_main_id with
        | some (v, txt), some mid =>
          { st with tasks := st.tasks ++ [create_task mid (some [v]) (strip txt)] }
        | _, _ =>
          match newLineNumberedMatch line, st.current_main_id with
          | some (v, txt), some mid =>
            { st with tasks := st.tasks ++ [create_task mid (some v) (strip txt)] }
          | _, _ => st
  else
    { st with all_answers := dictUpdate st.all_answers (extract_answers_from_line line) }

/-- One loop iteration: the line is normalized by
`line = re.sub(r'\s+', ' ', line.strip())` before classification. -/
def scanLine (st : ScanState) (line : List Char) (next? : Option (List Char)) :
    ScanState :=
  scanLineNorm st (collapseWS (strip line)) next?

/-- The scan over the whole line list; the lookahead passed to each step is the
head of the remaining lines (Python's `lines[i + 1]`). -/
def scanLines : ScanState → List (List Char) → ScanState
  | st, [] => st
  | st, l :: rest => scanLines (scanLine st l rest.head?) rest

/-- Source line `lines = [p.text.strip() for p in doc.paragraphs if p.text.strip()]`. -/
def linesOf (paragraphs : List (List Char)) : List (List Char) :=
  (paragraphs.map strip).filter (fun l => !l.isEmpty)

/-- The final merge loop: overwrite each task's answer with the mapping's value
for its id, when present. -/
def mergeAnswers (tasks : List Task) (m : List (List Char × List Char)) :
    List Task :=
  tasks.map (fun t =>
    match dictGet m t.id_tasks_book with
    | some a => { t with answer := a }
    | none => t)

/-- Function `extract_tasks_from_docx`, taking the document's paragraph texts as input
(the docx container handling is outside the modelled core). -/
def extract_tasks_from_docx (paragraphs : List (List Char)) : List Task :=
  let st := scanLines initState (linesOf paragraphs)
  mergeAnswers st.tasks st.all_answers

/-! ### Table-of-contents extraction (`extract_toc`) -/

/-- A TOC entry before `temp` (the dotted section number) is popped. -/
structure TocEntry where
  id : Nat
  name : List Char
  parent : Nat
  temp : List Char
deriving DecidableEq, Repr

/-- An exported TOC node (after `item.pop('temp', None)`). -/
structure TocNode where
  id : Nat
  name : List Char
  parent : Nat
deriving DecidableEq, Repr

/-- The TOC-mode sentinel substring. -/
def oglavlenie : List Char := "Оглавление".data

/-- Python `sub in text` substring test. -/
def containsSub (pat s : List Char) : Bool :=
  s.tails.any (fun t => pat.isPrefixOf t)

/-- The `(\.\d+)*` repetitions after the leading digits of a dotted section
number, each returned as a `.digits` chunk (greedy, maximal). -/
def parseSegsF : Nat → List Char → List (List Char)
  | 0, _ => []
  | fuel + 1, s =>
    match s with
    | '.' :: rest =>
      let ds := rest.takeWhile isDigit
      if ds.isEmpty then []
      else ('.' :: ds) :: parseSegsF fuel (rest.dropWhile isDigit)
    | _ => []

/-- The `(\.\d+)*` repetitions, with fuel. -/
def parseSegs (s : List Char) : List (List Char) := parseSegsF s.length s

/-- Character class `[\.\s\t]`. -/
def isDotWsClass (c : Char) : Bool := c = '.' || isSpaceChar c

/-- Regex `re.match(r'^\d+(\.\d+)*[\.\s\t]+', text)`: after the maximal dotted number
a class character must follow; dropping the last `(\.\d+)` repetition exposes a
dot, so with at least one repetition the pattern always matches. -/
def tocDetect (t : List Char) : Bool :=
  let d0 := t.takeWhile isDigit
  if d0.isEmpty then false
  else
    let rest := t.dropWhile isDigit
    match parseSegs rest with
    | [] =>
      match rest.head? with
      | some c => isDotWsClass c
      | none => false
    | _ :: _ => true

/-- Tail `(?:\s+\d+)?$` after the lazy name group: the remainder must be empty,
or a whitespace run followed by digits reaching the end of the string. -/
def tailPageOk (r : List Char) : Bool :=
  match r with
  | [] => true
  | _ =>
    let w := r.takeWhile isSpaceChar
    let r2 := r.dropWhile isSpaceChar
    !w.isEmpty && !r2.isEmpty && r2.all isDigit

/-- Lazy group `(.+?)` followed by `(?:\s+\d+)?$`: the smallest positive prefix
of non-newline characters after which the tail matches. -/
def lazyName (s : List Char) : Option (List Char) :=
  (List.range s.length).findSome? (fun i =>
    let m := i + 1
    if (s.take m).all isDotChar && tailPageOk (s.drop m) then some (s.take m)
    else none)

/-- The `[\.\s\t]+` separator of the section regex, greedy with backtracking:
try the run length from maximal down to one, each time attempting the lazy
name group on the remainder. -/
def classRunTry (remaining : List Char) : Option (List Char) :=
  let w := (remaining.takeWhile isDotWsClass).length
  (List.range w).findSome? (fun j => lazyName (remaining.drop (w - j)))

/-- Regex `re.match(r'^(\d+(?:\.\d+)*)[\.\s\t]+(.+?)(?:\s+\d+)?$', text)`: the dotted
number group is greedy and backtracks by whole `.digits` repetitions (the digit
runs themselves are forced maximal).  Returns the section number and the raw
name group. -/
def sectionMatch (t : List Char) : Option (List Char × List Char) :=
  let d0 := t.takeWhile isDigit
  if d0.isEmpty then none
  else
    let segs := parseSegs (t.dropWhile isDigit)
    (List.range (segs.length + 1)).findSome? (fun j =>
      let num := d0 ++ (segs.take (segs.length - j)).flatten
      match classRunTry (t.drop num.length) with
      | some name => some (num, name)
      | none => none)

/-- Python `section_num.rsplit('.', 1)[0]` for a number containing a dot: everything
before the last dot. -/
def rsplitHead (s : List Char) : List Char :=
  ((s.reverse.dropWhile (fun c => c ≠ '.')).drop 1).reverse

/-- Parent resolution: the id of the first already-recorded entry whose section
number is this number with its last dot-segment removed; `0` for a top-level
number or when no such entry exists. -/
def resolveParent (prior : List TocEntry) (num : List Char) : Nat :=
  if num.contains '.' then
    match prior.find? (fun e => e.temp = rsplitHead num) with
    | some e => e.id
    | none => 0
  else 0

/-- The TOC scan loop: enter outline mode on a paragraph containing
`Оглавление`, record a node for each matching line, and stop the whole scan on
the first non-matching line seen while inside the outline. -/
def tocScan : Bool → Nat → List TocEntry → List (List Char) → List TocEntry
  | _, _, acc, [] => acc
  | inside, cid, acc, text :: rest =>
    if containsSub oglavlenie text then tocScan true cid acc rest
    else if inside && tocDetect text then
      match sectionMatch text with
      | some (num, rawName) =>
        tocScan inside (cid + 1)
          (acc ++ [⟨cid, strip rawName, resolveParent acc num, num⟩]) rest
      | none => tocScan inside cid acc rest
    else if inside && !tocDetect text then acc
    else tocScan inside cid acc rest

/-- Function `extract_toc` before the final `pop('temp')`, taking the per-paragraph
texts (each stripped, as in the source). -/
def extract_toc_entries (texts : List (List Char)) : List TocEntry :=
  tocScan false 1 [] (texts.map strip)

/-- Function `extract_toc`: the exported nodes with `temp` popped. -/
def extract_toc (texts : List (List Char)) : List TocNode :=
  (extract_toc_entries texts).map (fun e => ⟨e.id, e.name, e.parent⟩)

/-! ### Supporting lemmas -/

/-- A whitespace character is not a digit. -/
theorem isSpace_not_digit {c : Char} (h : isSpaceChar c = true) : isDigit c = false := by
  simp [isSpaceChar] at h
  simp [isDigit]
  omega

/-- A Cyrillic letter is not a digit. -/
theorem isCyr_not_digit {c : Char} (h : isCyrAny c = true) : isDigit c = false := by
  simp [isCyrAny, isCyrLower] at h
  simp [isDigit]
  omega

/-- If skipping whitespace exposes a non-digit character, the list has no
leading digits at all. -/
theorem takeWhile_digit_nil_of_dropSpace {rest : List Char} {c : Char} {r : List Char}
    (h : rest.dropWhile isSpaceChar = c :: r) (hc : isDigit c = false) :
    rest.takeWhile isDigit = [] := by
  cases rest with
  | nil => simp at h
  | cons a as =>
    by_cases ha : isSpaceChar a = true
    · simp [List.takeWhile_cons, isSpace_not_digit ha]
    · rw [List.dropWhile_cons_of_neg (by simp [ha])] at h
      cases h
      simp [List.takeWhile_cons, hc]

/-- A line recognized by the three-level-dotted test is also recognized by the
main-task pattern (contrapositive used to discharge the skip test). -/
theorem threeLevel_false_of_mainMatch_none {line : List Char}
    (h : mainMatch line = none) : matchesThreeLevel line = false := by
  unfold mainMatch at h
  unfold matchesThreeLevel
  by_cases hds : (line.takeWhile isDigit).isEmpty = true
  · simp [hds]
  · simp only [hds, if_false, Bool.false_eq_true] at h ⊢
    cases hdd : line.dropWhile isDigit with
    | nil => simp
    | cons a rest =>
      rw [hdd] at h
      split at h
      · exact absurd h (by simp)
      · rfl

/-- The scan state after one answers-mode step: tasks are untouched and the
mode flag stays set. -/
theorem scanLineNorm_answers_mode (st : ScanState) (line : List Char)
    (next? : Option (List Char)) (h : st.answers_section = true) :
    (scanLineNorm st line next?).tasks = st.tasks ∧
    (scanLineNorm st line next?).answers_section = true := by
  unfold scanLineNorm
  by_cases hs : line = sentinelAnswers
  · simp [hs]
  · simp [hs, h]

/-- Once the answers flag is set, the rest of the scan leaves the task list
unchanged and the flag set. -/
theorem scanLines_answers_mode (ls : List (List Char)) :
    ∀ st : ScanState, st.answers_section = true →
    (scanLines st ls).tasks = st.tasks ∧ (scanLines st ls).answers_section = true := by
  induction ls with
  | nil => intro st h; exact ⟨rfl, h⟩
  | cons l rest ih =>
    intro st h
    have step := scanLineNorm_answers_mode st (collapseWS (strip l)) rest.head? h
    have := ih (scanLine st l rest.head?) step.2
    simp only [scanLines]
    exact ⟨this.1.trans step.1, this.2⟩

/-! ### Claim theorems -/

/-- C4: once a line equal (after whitespace normalization) to the sentinel
heading "Ответы и советы" has been seen, no task record is emitted for any
later line of the input, whatever those lines contain, and the transition to
answers mode is irreversible for the rest of the pass. -/
theorem claim_C4_sentinel_stops_tasks (st : ScanState) (l : List Char)
    (suf : List (List Char)) (hl : collapseWS (strip l) = sentinelAnswers) :
    (scanLines st (l :: suf)).tasks = st.tasks ∧
    (scanLines st (l :: suf)).answers_section = true := by
  have hstep : scanLine st l suf.head? = { st with answers_section := true } := by
    unfold scanLine
    rw [hl]
    unfold scanLineNorm
    simp
  simp only [scanLines, hstep]
  exact scanLines_answers_mode suf _ rfl

/-- C4 witness: a sentinel line carrying extra internal whitespace switches the
scan to answers mode, and the task-shaped lines after it emit nothing. -/
theorem claim_C4_witness :
    (scanLines initState (("Ответы  и советы".data) :: ["5. X".data, "а) y".data])).tasks
      = initState.tasks ∧
    (scanLines initState (("Ответы  и советы".data) :: ["5. X".data, "а) y".data])).answers_section
      = true :=
  claim_C4_sentinel_stops_tasks initState ("Ответы  и советы".data)
    ["5. X".data, "а) y".data] (by decide)

/-- C5: a line matching the three-level dotted shape `\d+\.\d+\.` at its
start, processed while not yet in the answers section, leaves the scan state
unchanged: no task record of any kind is emitted for it. -/
theorem claim_C5_three_level_skipped (st : ScanState) (line : List Char)
    (next? : Option (List Char)) (hans : st.answers_section = false)
    (hthree : matchesThreeLevel line = true) :
    scanLineNorm st line next? = st := by
  have hs : line ≠ sentinelAnswers := by
    intro h
    rw [h] at hthree
    exact absurd hthree (by decide)
  unfold scanLineNorm
  simp [hs, hans, hthree]

/-- C5 witness: the three-level line "12.3. content" is skipped from the
initial state. -/
theorem claim_C5_witness :
    scanLineNorm initState ("12.3. content".data) none = initState :=
  claim_C5_three_level_skipped initState ("12.3. content".data) none rfl (by decide)

/-- C8: the answer-merge step is idempotent: merging the same answer mapping
twice yields the same task list as merging it once. -/
theorem claim_C8_merge_idempotent (tasks : List Task)
    (m : List (List Char × List Char)) :
    mergeAnswers (mergeAnswers tasks m) m = mergeAnswers tasks m := by
  unfold mergeAnswers
  rw [List.map_map]
  apply List.map_congr_left
  intro t _
  cases h : dictGet m t.id_tasks_book with
  | none => simp [h]
  | some a => simp [h]

/-- C2: a normalized line of the form "N. prose" (digits, dot, non-empty
stripped prose) that matches neither inline sub-variant pattern nor the
three-level dotted shape, and whose following line does not match the header
shape `N.M.`, makes the scan emit exactly one main task record whose id is N
and whose text is the prose (no indentation mark). -/
theorem claim_C2_bare_main_task (st : ScanState) (line : List Char)
    (next? : Option (List Char)) (mid g2 : List Char)
    (hans : st.answers_section = false)
    (hmain : mainMatch line = some (mid, g2))
    (hthree : matchesThreeLevel line = false)
    (hil : inlineLetterMatch line = none)
    (hin : inlineNumberedMatch line = none)
    (hsuf : (strip g2).isEmpty = false)
    (hhdr : headerNext mid next? = false) :
    (scanLineNorm st line next?).tasks = st.tasks ++ [create_task mid none (strip g2) false] ∧
    (create_task mid none (strip g2) false).id_tasks_book = mid ∧
    (create_task mid none (strip g2) false).task = strip g2 := by
  have hs : line ≠ sentinelAnswers := by
    intro h
    rw [h, show mainMatch sentinelAnswers = none from by decide] at hmain
    exact absurd hmain (by simp)
  refine ⟨?_, rfl, rfl⟩
  unfold scanLineNorm
  simp [hs, hans, hthree, hmain, hil, hin, hsuf, hhdr]

/-- C2 witness: from the initial state, the line "7. Foo bar" with no
following line emits the single main record with id 7 and text "Foo bar". -/
theorem claim_C2_witness :
    (scanLineNorm initState ("7. Foo bar".data) none).tasks
      = initState.tasks ++ [create_task ("7".data) none (strip "Foo bar".data) false] ∧
    (create_task ("7".data) none (strip "Foo bar".data) false).id_tasks_book = "7".data ∧
    (create_task ("7".data) none (strip "Foo bar".data) false).task = strip "Foo bar".data :=
  claim_C2_bare_main_task initState ("7. Foo bar".data) none ("7".data) ("Foo bar".data)
    rfl (by decide) (by decide) (by decide) (by decide) (by decide) (by decide)

/-- C9: while the current-main-id register is still unset, a line that matches
a new-line sub-variant pattern (and is not itself a main-task line) leaves the
scan state unchanged: no task record is emitted and the register stays unset,
so every sub-variant record's id prefix comes from a main number established by
an earlier line. -/
theorem claim_C9_no_main_id_no_subvariant (st : ScanState) (line : List Char)
    (next? : Option (List Char))
    (hans : st.answers_section = false)
    (hid : st.current_main_id = none)
    (hmain : mainMatch line = none)
    (hnl : newLineLetterMatch line ≠ none ∨ newLineNumberedMatch line ≠ none) :
    scanLineNorm st line next? = st := by
  have hs : line ≠ sentinelAnswers := by
    intro h
    rcases hnl with hl | hn
    · rw [h, show newLineLetterMatch sentinelAnswers = none from by decide] at hl
      exact hl rfl
    · rw [h, show newLineNumberedMatch sentinelAnswers = none from by decide] at hn
      exact hn rfl
  have hthree : matchesThreeLevel line = false := threeLevel_false_of_mainMatch_none hmain
  unfold scanLineNorm
  cases hl : newLineLetterMatch line <;> cases hn : newLineNumberedMatch line <;>
    simp [hs, hans, hthree, hmain, hid, hl, hn]

/-- C9 witness: from the initial state (no main id yet) the sub-variant line
"б) y" emits nothing and changes nothing. -/
theorem claim_C9_witness :
    scanLineNorm initState ("б) y".data) none = initState :=
  claim_C9_no_main_id_no_subvariant initState ("б) y".data) none rfl rfl (by decide)
    (Or.inl (by decide))

/-- C10: while scanning tasks, every line matching "N." at its start (and not
the three-level dotted shape) sets the current-main-id register to N, whether
or not a task record is emitted for the line (empty remainder, header
suppression, inline sub-variant or bare main task alike). -/
theorem claim_C10_register_always_set (st : ScanState) (line : List Char)
    (next? : Option (List Char)) (mid g2 : List Char)
    (hans : st.answers_section = false)
    (hthree : matchesThreeLevel line = false)
    (hmain : mainMatch line = some (mid, g2)) :
    (scanLineNorm st line next?).current_main_id = some mid := by
  have hs : line ≠ sentinelAnswers := by
    intro h
    rw [h, show mainMatch sentinelAnswers = none from by decide] at hmain
    exact absurd hmain (by simp)
  unfold scanLineNorm
  simp only [hs, hans, hthree, hmain, if_false, Bool.false_eq_true]
  by_cases hh : headerNext mid next? = true <;>
    cases hil : inlineLetterMatch line <;>
    cases hin : inlineNumberedMatch line <;>
    by_cases hsf : (strip g2).isEmpty = true <;>
    simp [hh, hil, hin, hsf]

/-- C10 witness: the line "3." (empty remainder, no record emitted) sets the
register to 3, and in the full extraction the following "а) x+1" line attaches
to it. -/
theorem claim_C10_witness :
    extract_tasks_from_docx ["3.".data, "а) x+1".data]
      = [create_task ("3".data) (some ['а']) ("x+1".data)] ∧
    (scanLineNorm initState ("3.".data) (some ("а) x+1".data))).current_main_id
      = some ("3".data) :=
  ⟨by decide,
   claim_C10_register_always_set initState ("3.".data) (some ("а) x+1".data))
     ("3".data) [] rfl (by decide) (by decide)⟩

/-- C3 counterexample: the line "1.а) x" has the sub-variant shape
"N.letter) text", yet when the following line is "1.2. y" the header
suppression fires and the whole extraction emits no record at all. -/
theorem claim_C3_counterexample :
    inlineLetterMatch ("1.а) x".data) = some ('а', "x".data) ∧
    extract_tasks_from_docx ["1.а) x".data, "1.2. y".data] = [] := by
  exact ⟨by decide, by decide⟩

/-- C3 (amended): a line of shape "N.letter) text" processed while scanning
tasks, whose following line does not match the header shape `N.M.`, produces
exactly one sub-variant record with id "N.letter" and tab-indented text. -/
theorem claim_C3_inline_letter_subvariant (st : ScanState) (line : List Char)
    (next? : Option (List Char)) (v : Char) (txt : List Char)
    (hans : st.answers_section = false)
    (hmatch : inlineLetterMatch line = some (v, txt))
    (hhdr : headerNext (line.takeWhile isDigit) next? = false) :
    (scanLineNorm st line next?).tasks
      = st.tasks ++ [create_task (line.takeWhile isDigit) (some [v]) (strip txt)] ∧
    (create_task (line.takeWhile isDigit) (some [v]) (strip txt)).id_tasks_book
      = line.takeWhile isDigit ++ '.' :: [v] ∧
    (create_task (line.takeWhile isDigit) (some [v]) (strip txt)).task
      = '\t' :: strip txt := by
  have hm0 := hmatch
  unfold inlineLetterMatch at hmatch
  split at hmatch
  · rename_i rest heq
    split at hmatch
    · rename_i c r3 heq2
      simp at hmatch
      obtain ⟨hdig, hcyr, hws, hcv⟩ := hmatch
      subst hcv
      have hmain : mainMatch line
          = some (line.takeWhile isDigit,
              (rest.dropWhile isSpaceChar).takeWhile isDotChar) := by
        unfold mainMatch
        simp [heq, hdig]
      have hnil : rest.takeWhile isDigit = [] :=
        takeWhile_digit_nil_of_dropSpace heq2 (isCyr_not_digit hcyr)
      have hthree : matchesThreeLevel line = false := by
        unfold matchesThreeLevel
        simp [heq, hdig, hnil]
      have hs : line ≠ sentinelAnswers := by
        intro h
        rw [h, show mainMatch sentinelAnswers = none from by decide] at hmain
        exact absurd hmain (by simp)
      refine ⟨?_, rfl, rfl⟩
      unfold scanLineNorm
      simp [hs, hans, hthree, hmain, hhdr, hm0]
    · simp at hmatch
  · simp at hmatch

/-- C3 witness: from the initial state the line "2.б) foo" with no following
line emits the single sub-variant record with id "2.б" and indented text. -/
theorem claim_C3_witness :
    (scanLineNorm initState ("2.б) foo".data) none).tasks
      = initState.tasks
        ++ [create_task (("2.б) foo".data).takeWhile isDigit) (some ['б']) (strip "foo".data)] ∧
    (create_task (("2.б) foo".data).takeWhile isDigit) (some ['б']) (strip "foo".data)).id_tasks_book
      = ("2.б) foo".data).takeWhile isDigit ++ '.' :: ['б'] ∧
    (create_task (("2.б) foo".data).takeWhile isDigit) (some ['б']) (strip "foo".data)).task
      = '\t' :: strip "foo".data :=
  claim_C3_inline_letter_subvariant initState ("2.б) foo".data) none 'б' ("foo".data)
    rfl (by decide) (by decide)

/-- The spec's end-to-end example input, with the Latin letters it is written
with. -/
def c1Paragraphs : List (List Char) :=
  ["1. Solve the equation".data, "a) x+1=0".data, "b) x-1=0".data,
   "Ответы и советы".data, "1. a) -1 b) 1".data]

/-- The same example with the sub-variant letters written as the Cyrillic
letters а and б that the program's grammar recognizes. -/
def c1CyrParagraphs : List (List Char) :=
  ["1. Solve the equation".data, "а) x+1=0".data, "б) x-1=0".data,
   "Ответы и советы".data, "1. а) -1 б) 1".data]

/-- C1 counterexample: on the spec's exact input (Latin letters a, b) the
extraction produces a single record — the main task, whose answer is the whole
packed answer text — and no record with id "1.a" exists: the Latin letters
match neither the Cyrillic-only sub-variant grammar nor the answer-variant
patterns. -/
theorem claim_C1_counterexample :
    extract_tasks_from_docx c1Paragraphs
      = [{ id_tasks_book := "1".data, task := "Solve the equation".data,
           answer := "a) -1 b) 1".data, classes := "5;6".data,
           topic_id := 1, level := 1 }] ∧
    ¬ "1.a".data ∈ (extract_tasks_from_docx c1Paragraphs).map Task.id_tasks_book := by
  exact ⟨by decide, by decide⟩

/-- C1 (amended): with the sub-variant letters written as Cyrillic а and б,
the extraction produces exactly the three records of the spec's example:
the main task with id "1" and text "Solve the equation" (answer left at the
sentinel), and the sub-variants "1.а" with answer "-1" and "1.б" with
answer "1". -/
theorem claim_C1_end_to_end_cyrillic :
    extract_tasks_from_docx c1CyrParagraphs
      = [{ id_tasks_book := "1".data, task := "Solve the equation".data,
           answer := "Отсутствует".data, classes := "5;6".data,
           topic_id := 1, level := 1 },
         { id_tasks_book := "1.а".data, task := ('\t' :: "x+1=0".data),
           answer := "-1".data, classes := "5;6".data,
           topic_id := 1, level := 1 },
         { id_tasks_book := "1.б".data, task := ('\t' :: "x-1=0".data),
           answer := "1".data, classes := "5;6".data,
           topic_id := 1, level := 1 }] := by
  decide

/-- The parent-linking property of a TOC entry list: each entry's parent field
is resolved against the entries discovered before it. -/
def parentInv (l : List TocEntry) : Prop :=
  ∀ i (h : i < l.length),
    (l.get ⟨i, h⟩).parent = resolveParent (l.take i) (l.get ⟨i, h⟩).temp

/-- Appending an entry whose parent was resolved against the current list
preserves the parent-linking property. -/
theorem parentInv_append (l : List TocEntry) (e : TocEntry)
    (hl : parentInv l) (he : e.parent = resolveParent l e.temp) :
    parentInv (l ++ [e]) := by
  intro i h
  rcases Nat.lt_or_ge i l.length with hi | hi
  · have hget : (l ++ [e]).get ⟨i, h⟩ = l.get ⟨i, hi⟩ := by
      simp [List.getElem_append_left hi]
    rw [hget, List.take_append_of_le_length (Nat.le_of_lt hi)]
    exact hl i hi
  · have hlen : i = l.length := by
      have := h
      simp at this
      omega
    subst hlen
    have hget : (l ++ [e]).get ⟨l.length, h⟩ = e := by
      simp
    rw [hget, List.take_left]
    exact he

/-- The TOC scan preserves the parent-linking property of its accumulator. -/
theorem tocScan_parentInv (texts : List (List Char)) :
    ∀ (inside : Bool) (cid : Nat) (acc : List TocEntry),
    parentInv acc → parentInv (tocScan inside cid acc texts) := by
  induction texts with
  | nil => intro inside cid acc hacc; simpa [tocScan] using hacc
  | cons text rest ih =>
    intro inside cid acc hacc
    unfold tocScan
    split
    · exact ih _ _ _ hacc
    · split
      · split
        · exact ih _ _ _ (parentInv_append _ _ hacc rfl)
        · exact ih _ _ _ hacc
      · split
        · exact hacc
        · exact ih _ _ _ hacc

/-- C6: every outline node recorded by the TOC extractor has a parent field
equal to the id of the first earlier-discovered node whose dotted section
number is this node's section number with the last dot-segment removed, and 0
when the number has no dot or no such prior node exists. -/
theorem claim_C6_toc_parent_resolution (texts : List (List Char)) (i : Nat)
    (h : i < (extract_toc_entries texts).length) :
    ((extract_toc_entries texts).get ⟨i, h⟩).parent
      = resolveParent ((extract_toc_entries texts).take i)
          ((extract_toc_entries texts).get ⟨i, h⟩).temp :=
  tocScan_parentInv (texts.map strip) false 1 [] (fun i hi => by simp at hi) i h

/-- The outline example input: a contents heading followed by four dotted
section lines. -/
def c6Texts : List (List Char) :=
  ["Оглавление".data, "1. Intro".data, "1.1. Basics".data,
   "1.2. Advanced".data, "2. Next".data]

/-- C6 witness: on the example input the extractor records the four expected
nodes, and the parent-resolution theorem applies to the node "Basics" (index
1), whose parent is resolved among the earlier-discovered entries. -/
theorem claim_C6_witness :
    extract_toc c6Texts
      = [⟨1, "Intro".data, 0⟩, ⟨2, "Basics".data, 1⟩,
         ⟨3, "Advanced".data, 1⟩, ⟨4, "Next".data, 0⟩] ∧
    ((extract_toc_entries c6Texts).get ⟨1, by decide⟩).parent
      = resolveParent ((extract_toc_entries c6Texts).take 1)
          ((extract_toc_entries c6Texts).get ⟨1, by decide⟩).temp :=
  ⟨by decide, claim_C6_toc_parent_resolution c6Texts 1 (by decide)⟩

/-- A non-sentinel line processed in task mode keeps the scan in task mode. -/
theorem step_answers_flag (st : ScanState) (line : List Char)
    (next? : Option (List Char)) (hs : line ≠ sentinelAnswers)
    (hans : st.answers_section = false) :
    (scanLineNorm st line next?).answers_section = false := by
  unfold scanLineNorm
  rw [if_neg hs, if_pos hans]
  repeat' first
  | rfl
  | exact hans
  | split
  | dsimp only

/-- A non-sentinel line processed in task mode leaves the answer mapping
untouched. -/
theorem step_all_answers (st : ScanState) (line : List Char)
    (next? : Option (List Char)) (hs : line ≠ sentinelAnswers)
    (hans : st.answers_section = false) :
    (scanLineNorm st line next?).all_answers = st.all_answers := by
  unfold scanLineNorm
  rw [if_neg hs, if_pos hans]
  repeat' first
  | rfl
  | split
  | dsimp only

/-- Every task present after a non-sentinel task-mode step was already present
or is freshly created with the default answer sentinel. -/
theorem step_tasks_default (st : ScanState) (line : List Char)
    (next? : Option (List Char)) (hs : line ≠ sentinelAnswers)
    (hans : st.answers_section = false) :
    ∀ t ∈ (scanLineNorm st line next?).tasks,
      t ∈ st.tasks ∨ t.answer = "Отсутствует".data := by
  have hmem : ∀ (ts : List Task) (ct : Task) (hct : ct.answer = "Отсутствует".data)
      (t : Task), t ∈ ts ++ [ct] → t ∈ ts ∨ t.answer = "Отсутствует".data := by
    intro ts ct hct t ht
    rcases List.mem_append.mp ht with h | h
    · exact Or.inl h
    · rw [List.mem_singleton] at h
      subst h
      exact Or.inr hct
  unfold scanLineNorm
  rw [if_neg hs, if_pos hans]
  repeat' first
  | exact fun t ht => Or.inl ht
  | exact hmem _ _ rfl
  | split
  | dsimp only

/-- Scanning lines none of which normalizes to the sentinel keeps the scan in
task mode, leaves the answer mapping untouched, and only ever creates tasks
with the default answer. -/
theorem scanLines_no_sentinel (ls : List (List Char)) :
    ∀ st : ScanState,
    (∀ l ∈ ls, collapseWS (strip l) ≠ sentinelAnswers) →
    st.answers_section = false →
    (scanLines st ls).answers_section = false ∧
    (scanLines st ls).all_answers = st.all_answers ∧
    ∀ t ∈ (scanLines st ls).tasks,
      t ∈ st.tasks ∨ t.answer = "Отсутствует".data := by
  induction ls with
  | nil => intro st _ hans; exact ⟨hans, rfl, fun t ht => Or.inl ht⟩
  | cons l rest ih =>
    intro st hls hans
    have hl : collapseWS (strip l) ≠ sentinelAnswers := hls l (by simp)
    have hrest : ∀ x ∈ rest, collapseWS (strip x) ≠ sentinelAnswers :=
      fun x hx => hls x (by simp [hx])
    have hstep1 := step_answers_flag st (collapseWS (strip l)) rest.head? hl hans
    have hstep2 := step_all_answers st (collapseWS (strip l)) rest.head? hl hans
    have hstep3 := step_tasks_default st (collapseWS (strip l)) rest.head? hl hans
    have hrec := ih (scanLine st l rest.head?) hrest hstep1
    refine ⟨hrec.1, ?_, ?_⟩
    · exact hrec.2.1.trans hstep2
    · intro t ht
      rcases hrec.2.2 t ht with h | h
      · exact hstep3 t h
      · exact Or.inr h

/-- C7: when no line of the input normalizes to the sentinel heading, the
whole pass stays in task mode: the final answer mapping is empty, the output
equals the scanned task list unchanged by the merge, and every emitted task
record's answer is the default sentinel "Отсутствует". -/
theorem claim_C7_no_sentinel_default_answers (paragraphs : List (List Char))
    (h : ∀ l ∈ linesOf paragraphs, collapseWS (strip l) ≠ sentinelAnswers) :
    (scanLines initState (linesOf paragraphs)).all_answers = [] ∧
    extract_tasks_from_docx paragraphs
      = (scanLines initState (linesOf paragraphs)).tasks ∧
    ∀ t ∈ extract_tasks_from_docx paragraphs, t.answer = "Отсутствует".data := by
  have hmain := scanLines_no_sentinel (linesOf paragraphs) initState h rfl
  have hempty : (scanLines initState (linesOf paragraphs)).all_answers = [] :=
    hmain.2.1
  have hmerge : extract_tasks_from_docx paragraphs
      = (scanLines initState (linesOf paragraphs)).tasks := by
    unfold extract_tasks_from_docx
    dsimp only
    rw [hempty]
    unfold mergeAnswers dictGet
    simp
  refine ⟨hempty, hmerge, ?_⟩
  intro t ht
  rw [hmerge] at ht
  rcases hmain.2.2 t ht with hin | hdef
  · simp [initState] at hin
  · exact hdef

/-- C7 witness: a two-line input without the sentinel yields an empty answer
mapping and tasks whose answers all stay at the default sentinel. -/
theorem claim_C7_witness :
    (scanLines initState (linesOf ["1. Foo".data, "а) bar".data])).all_answers = [] ∧
    extract_tasks_from_docx ["1. Foo".data, "а) bar".data]
      = (scanLines initState (linesOf ["1. Foo".data, "а) bar".data])).tasks ∧
    ∀ t ∈ extract_tasks_from_docx ["1. Foo".data, "а) bar".data],
      t.answer = "Отсутствует".data :=
  claim_C7_no_sentinel_default_answers ["1. Foo".data, "а) bar".data] (by decide)

end ParseTaskbook
